import Mathlib

/-!
Verification of the Pastebin-Lite service (`app/models.py`, `app/utils.py`,
`app/schemas.py`, `app/main.py`) against its specification.

Modelling conventions:
* Time is an integer count of microseconds since the Unix epoch (the precision
  of Python `datetime`); `ttl_seconds` therefore contributes `ttl * 1000000`
  and the `x-test-now-ms` header value `ms` contributes `ms * 1000`.
* The database is a list of `Paste` records; SQLAlchemy's
  `query(..).filter(Paste.id == pid).first()` is `List.find?` and the in-place
  mutation followed by `commit` is replacement of the first record with that id.
* HTTP handlers become pure functions from (store, request data) to
  (response, store).
-/

/-- One row of the `pastes` table (`app/models.py`, class `Paste`). -/
structure Paste where
  id : String
  content : String
  ttl_seconds : Option Int
  max_views : Option Int
  current_views : Int
  created_at : Int
  expires_at : Option Int
  is_active : Bool
deriving Repr, DecidableEq

/-- Model of `Paste.is_expired` (`models.py` lines 80-97) with an explicit current time,
as both call sites in `main.py` pass one: expired iff `expires_at` is set and
`current_time >= expires_at`. -/
def Paste.is_expired (p : Paste) (current_time : Int) : Bool :=
  match p.expires_at with
  | none => false
  | some e => current_time ≥ e

/-- Model of `Paste.is_view_limit_reached` (`models.py` lines 99-109). -/
def Paste.is_view_limit_reached (p : Paste) : Bool :=
  match p.max_views with
  | none => false
  | some m => p.current_views ≥ m

/-- Model of `Paste.is_available` (`models.py` lines 111-130). -/
def Paste.is_available (p : Paste) (current_time : Int) : Bool :=
  if !p.is_active then false
  else if p.is_expired current_time then false
  else if p.is_view_limit_reached then false
  else true

/-- Model of `Paste.get_remaining_views` (`models.py` lines 132-143):
`None` if unlimited, else `max 0 (max_views - current_views)`. -/
def Paste.get_remaining_views (p : Paste) : Option Int :=
  match p.max_views with
  | none => none
  | some m => some (max 0 (m - p.current_views))

/-- Model of `calculate_expiry_time` (`utils.py` lines 77-94):
`created_at + timedelta(seconds=ttl_seconds)`, in microseconds. -/
def calculate_expiry_time (created_at : Int) (ttl_seconds : Int) : Int :=
  created_at + ttl_seconds * 1000000

/-- Python whitespace characters stripped by `str.strip()` (ASCII range;
the claims only exercise ASCII input). -/
def isPySpace (c : Char) : Bool :=
  c = ' ' || c = Char.ofNat 9 || c = Char.ofNat 10 || c = Char.ofNat 13 ||
  c = Char.ofNat 11 || c = Char.ofNat 12

/-- Python `str.strip()`: drop whitespace from both ends. -/
def pyStrip (s : String) : String :=
  ⟨((s.data.dropWhile isPySpace).reverse.dropWhile isPySpace).reverse⟩

/-- Digit-sequence parser for Python `int(str)`: digits with single
underscores allowed between digits (PEP 515), accumulating the value. -/
def parseDigitsAux (acc : Nat) : List Char → Option Nat
  | [] => some acc
  | '_' :: c :: rest =>
      if c.isDigit then parseDigitsAux (acc * 10 + (c.toNat - 48)) rest else none
  | c :: rest =>
      if c = '_' then none
      else if c.isDigit then parseDigitsAux (acc * 10 + (c.toNat - 48)) rest else none

/-- Nonempty digit sequence (underscore grouping allowed after the first
digit), as accepted by Python `int(str)` after sign handling. -/
def parseDigits : List Char → Option Nat
  | [] => none
  | c :: rest => if c.isDigit then parseDigitsAux (c.toNat - 48) rest else none

/-- Python `int(str)`: strip whitespace, optional single sign, digits. -/
def pyParseInt (s : String) : Option Int :=
  match (pyStrip s).data with
  | '+' :: rest => (parseDigits rest).map Int.ofNat
  | '-' :: rest => (parseDigits rest).map (fun n => -(Int.ofNat n))
  | rest => (parseDigits rest).map Int.ofNat

/-- Microsecond epoch value of `datetime.min` (0001-01-01T00:00:00 UTC),
the earliest instant a Python `datetime` can represent. -/
def datetimeMinUs : Int := -62135596800000000

/-- Microsecond epoch value of `datetime.max`
(9999-12-31T23:59:59.999999 UTC), the latest instant a Python `datetime`
can represent. -/
def datetimeMaxUs : Int := 253402300799999999

/-- Millisecond magnitude at which the seconds value handed to
`fromtimestamp` reaches 2^63, the 64-bit `time_t` bound of the reference
platform: at or beyond it the conversion raises `OverflowError`, which the
source's `except (ValueError, OSError)` does not catch. -/
def timetOverflowMs : Int := 9223372036854775808 * 1000

/-- Outcome of `get_current_time`: either a computed datetime (in
microseconds) or an exception escaping the function (the route's generic
handler then answers 500). -/
inductive ClockOutcome where
  | now (us : Int)
  | raised
deriving Repr, DecidableEq

/-- Model of `get_current_time` (`utils.py` lines 33-74). Here `test_mode` is
`os.environ.get("TEST_MODE") == "1"`; `header` is
`request.headers.get("x-test-now-ms")` (`none` when absent); `wall` is
`datetime.now(timezone.utc)` in microseconds. A present-but-empty header is
falsy in Python and falls through to the wall clock, as does a header that
`int()` rejects. A parsed value `ms` is passed through
`datetime.fromtimestamp(int(ms) / 1000, tz=timezone.utc)`: an instant a
`datetime` can represent (years 1-9999) yields `ms * 1000` microseconds; an
instant beyond that but within the platform's `time_t` raises `ValueError`
or `OSError`, both caught, so the wall clock is used; a magnitude at or
beyond the `time_t` bound raises an uncaught `OverflowError` and the
function does not return. -/
def get_current_time (test_mode : Bool) (header : Option String) (wall : Int) :
    ClockOutcome :=
  if test_mode then
    match header with
    | some s =>
        if s ≠ "" then
          match pyParseInt s with
          | some v =>
              if timetOverflowMs ≤ v ∨ v ≤ -timetOverflowMs then .raised
              else if datetimeMinUs ≤ v * 1000 ∧ v * 1000 ≤ datetimeMaxUs then
                .now (v * 1000)
              else .now wall
          | none => .now wall
        else .now wall
    | none => .now wall
  else .now wall

/-- Request body of `POST /api/pastes` before validation
(`schemas.py`, class `PasteCreate`, raw field values). -/
structure PasteCreate where
  content : String
  ttl_seconds : Option Int
  max_views : Option Int
deriving Repr, DecidableEq

/-- The `content_not_empty` validator (`schemas.py` lines 36-52):
rejects `not v or not v.strip()`. -/
def content_not_empty (v : String) : Bool :=
  !(v = "" || pyStrip v = "")

/-- The `ttl_positive` validator (`schemas.py` lines 54-70):
rejects a present value `< 1`. -/
def ttl_positive (v : Option Int) : Bool :=
  match v with
  | none => true
  | some t => !(t < 1)

/-- The `max_views_positive` validator (`schemas.py` lines 72-88):
rejects a present value `< 1`. -/
def max_views_positive (v : Option Int) : Bool :=
  match v with
  | none => true
  | some m => !(m < 1)

/-- Pydantic validation of a `PasteCreate` body: all three field
validators must accept. -/
def validate_paste_create (d : PasteCreate) : Bool :=
  content_not_empty d.content && ttl_positive d.ttl_seconds &&
    max_views_positive d.max_views

/-- The store: the `pastes` table as a list of rows. -/
abbrev Store := List Paste

/-- Model of `db.query(Paste).filter(Paste.id == paste_id).first()`. -/
def findPaste (db : Store) (pid : String) : Option Paste :=
  db.find? (fun p => p.id == pid)

/-- Persisting an in-place mutation of the record `first()` returned:
replace the first row whose id matches. -/
def updateFirst (db : Store) (pid : String) (f : Paste → Paste) : Store :=
  match db with
  | [] => []
  | p :: rest => if p.id == pid then f p :: rest else p :: updateFirst rest pid f

/-- A Python `datetime` value (UTC): calendar fields at microsecond
precision, as used by `format_datetime_iso` (`utils.py` lines 97-117). -/
structure DateTime where
  year : Nat
  month : Nat
  day : Nat
  hour : Nat
  minute : Nat
  second : Nat
  microsecond : Nat
deriving Repr, DecidableEq

/-- The character for decimal digit `n % 10`. -/
def digitChar (n : Nat) : Char := Char.ofNat (48 + n % 10)

/-- Zero-padded two-digit rendering, as `%02d` on a value below 100. -/
def pad2 (n : Nat) : List Char := [digitChar (n / 10), digitChar n]

/-- Zero-padded three-digit rendering, as `%03d` on a value below 1000. -/
def pad3 (n : Nat) : List Char := [digitChar (n / 100), digitChar (n / 10), digitChar n]

/-- Zero-padded four-digit rendering, as `%04d` on a value below 10000
(Python years are 1..9999). -/
def pad4 (n : Nat) : List Char :=
  [digitChar (n / 1000), digitChar (n / 100), digitChar (n / 10), digitChar n]

/-- The date-time part `YYYY-MM-DDTHH:MM:SS.mmm` of the ISO rendering, the
milliseconds being `microsecond // 1000` (truncation, per CPython). -/
def isoBody (dt : DateTime) : List Char :=
  pad4 dt.year ++ ['-'] ++ pad2 dt.month ++ ['-'] ++ pad2 dt.day ++ ['T'] ++
  pad2 dt.hour ++ [':'] ++ pad2 dt.minute ++ [':'] ++ pad2 dt.second ++
  ['.'] ++ pad3 (dt.microsecond / 1000)

/-- Model of `dt.isoformat(timespec='milliseconds')` for a UTC-aware datetime:
`YYYY-MM-DDTHH:MM:SS.mmm+00:00`. -/
def isoformatMillis (dt : DateTime) : List Char :=
  isoBody dt ++ ['+', '0', '0', ':', '0', '0']

/-- The timestamp shape the specification prescribes, stated in its words:
ISO-8601 at millisecond precision with a `Z` suffix
(e.g. `2026-01-31T12:00:00.000Z`). Used to compare `format_datetime_iso`
against the spec. -/
def isoCanonicalZ (dt : DateTime) : String :=
  ⟨isoBody dt ++ ['Z']⟩

/-- Python `str.replace(pat, repl)`: replace every (leftmost,
non-overlapping) occurrence of a nonempty pattern `p :: ps`. -/
def listReplace (p : Char) (ps : List Char) (repl : List Char) : List Char → List Char
  | [] => []
  | c :: rest =>
      if (p :: ps).isPrefixOf (c :: rest) then
        repl ++ listReplace p ps repl (rest.drop ps.length)
      else
        c :: listReplace p ps repl rest
termination_by l => l.length
decreasing_by
  · simp only [List.length_drop, List.length_cons]; omega
  · simp only [List.length_cons]; omega

/-- Model of `format_datetime_iso` (`utils.py` lines 97-117):
`dt.isoformat(timespec='milliseconds').replace('+00:00', 'Z')`. -/
def format_datetime_iso (dt : DateTime) : String :=
  ⟨listReplace '+' ['0', '0', ':', '0', '0'] ['Z'] (isoformatMillis dt)⟩

/-- Microseconds in one day. -/
def usPerDay : Int := 86400000000

/-- Civil date from a day count relative to 1970-01-01 (proleptic Gregorian,
the calendar of Python `datetime`). -/
def civilFromDays (days : Int) : Nat × Nat × Nat :=
  let z : Int := days + 719468
  let era : Int := z / 146097 - (if z % 146097 < 0 then 1 else 0)
  let doe : Nat := (z - era * 146097).toNat
  let yoe : Nat := (doe - doe / 1460 + doe / 36524 - doe / 146096) / 365
  let doy : Nat := doe - (365 * yoe + yoe / 4 - yoe / 100)
  let mp : Nat := (5 * doy + 2) / 153
  let d : Nat := doy - (153 * mp + 2) / 5 + 1
  let m : Nat := if mp < 10 then mp + 3 else mp - 9
  let y : Int := (yoe : Int) + era * 400 + (if m ≤ 2 then 1 else 0)
  (y.toNat, m, d)

/-- Model of `datetime.fromtimestamp(us / 10^6, tz=timezone.utc)` on a microsecond
epoch count: split into days and time of day, then into calendar fields. -/
def datetimeOfMicros (us : Int) : DateTime :=
  let days : Int := us / usPerDay - (if us % usPerDay < 0 then 1 else 0)
  let tod : Nat := (us - days * usPerDay).toNat
  let (y, m, d) := civilFromDays days
  { year := y, month := m, day := d,
    hour := tod / 3600000000,
    minute := tod / 60000000 % 60,
    second := tod / 1000000 % 60,
    microsecond := tod % 1000000 }

/-- Response of `GET /api/pastes/{id}` (`main.py`, `fetch_paste`): either a
JSON error body with its HTTP status, or the 200 payload
`content / remaining_views / expires_at` (the last already serialized). -/
inductive FetchResponse where
  | error (status : Nat) (msg : String)
  | success (content : String) (remaining_views : Option Int) (expires_at : Option String)
deriving Repr, DecidableEq

/-- Whether a fetch response is the 200 payload. -/
def FetchResponse.isSuccess : FetchResponse → Bool
  | .success _ _ _ => true
  | _ => false

/-- HTTP status of a fetch response. -/
def FetchResponse.status : FetchResponse → Nat
  | .error s _ => s
  | .success _ _ _ => 200

/-- The mutation `paste.is_active = False` persisted by `db.commit()`. -/
def deactivate (p : Paste) : Paste := { p with is_active := false }

/-- The cause classification of an unavailable paste in `fetch_paste`
(`main.py` lines 271-277): expiry first, then view limit, then a fallback. -/
def classifyApi (p : Paste) (t : Int) : String :=
  if p.is_expired t then "Paste has expired"
  else if p.is_view_limit_reached then "View limit exceeded"
  else "Paste not available"

/-- The successful-fetch mutation (`main.py` lines 284-291): increment
`current_views`, then deactivate if this view reached the limit. -/
def bumpViews (p : Paste) : Paste :=
  let p' := { p with current_views := p.current_views + 1 }
  if p'.is_view_limit_reached then { p' with is_active := false } else p'

/-- The 200 payload built from the refreshed record
(`main.py` lines 294-301). -/
def successPayload (p : Paste) : FetchResponse :=
  .success p.content p.get_remaining_views
    ((p.expires_at).map (fun e => format_datetime_iso (datetimeOfMicros e)))

/-- Model of `fetch_paste` (`main.py` lines 202-308) at reference time `t`:
missing id gives a 404; an unavailable paste is marked inactive, the cause is
classified and a 404 with that message is returned; otherwise the view
counter is incremented, the limit re-checked (deactivating on exhaustion),
and the 200 payload built from the refreshed record. -/
def fetch_paste (db : Store) (pid : String) (t : Int) : FetchResponse × Store :=
  match findPaste db pid with
  | none => (.error 404 "Paste not found", db)
  | some paste =>
      if !(paste.is_available t) then
        (.error 404 (classifyApi paste t), updateFirst db pid deactivate)
      else
        (successPayload (bumpViews paste), updateFirst db pid (fun _ => bumpViews paste))

/-- Response of `POST /api/pastes` (`main.py`, `create_paste`). -/
inductive CreateResponse where
  | error (status : Nat) (msg : String)
  | validationError (status : Nat)
  | created (id : String) (url : String)
deriving Repr, DecidableEq

/-- The row inserted by the creation handler (`main.py` lines 153-168):
`expires_at` is computed exactly once, from `created_at` and a truthy
`ttl_seconds` (Python `if paste_data.ttl_seconds:`), and the record starts
with `current_views = 0` and `is_active = True`. -/
def createdPaste (d : PasteCreate) (pid : String) (now : Int) : Paste :=
  { id := pid, content := d.content, ttl_seconds := d.ttl_seconds,
    max_views := d.max_views, current_views := 0, created_at := now,
    expires_at :=
      match d.ttl_seconds with
      | some ttl => if ttl ≠ 0 then some (calculate_expiry_time now ttl) else none
      | none => none,
    is_active := true }

/-- Model of `create_paste` (`main.py` lines 99-199) with the Pydantic layer in
front: a body failing validation never reaches the handler and the store is
untouched, but the response is FastAPI's default for a
`RequestValidationError` - status 422 with a body of shape
`\x7b"detail": [...]\x7d` (`CreateResponse.validationError 422`). The
`@app.exception_handler(422)` registered in `main.py` lines 408-418 keys on
a status code, which Starlette consults only for `HTTPException`s, so it
never intercepts validation errors and the intended 400 rewrite never runs.
A primary-key collision of the generated id raises on commit and yields the
generic 500 with no insert; otherwise the new row is appended. -/
def create_paste (db : Store) (d : PasteCreate) (pid : String) (now : Int)
    (base_url : String) : CreateResponse × Store :=
  if !(validate_paste_create d) then
    (.validationError 422, db)
  else if (findPaste db pid).isSome then
    (.error 500 "Internal server error", db)
  else
    (.created pid (base_url ++ "/p/" ++ pid), db ++ [createdPaste d pid now])

/-- Response of `GET /p/{id}` (`main.py`, `view_paste`): a 404 HTML variant
carrying the classified message, or the rendered page. -/
inductive ViewResponse where
  | notFoundPage (msg : String)
  | page (pid : String) (content : String)
deriving Repr, DecidableEq

/-- The cause classification of an unavailable paste in `view_paste`
(`main.py` lines 369-375). -/
def classifyPage (p : Paste) (t : Int) : String :=
  if p.is_expired t then "Paste Has Expired"
  else if p.is_view_limit_reached then "View Limit Exceeded"
  else "Paste Not Available"

/-- Model of `view_paste` (`main.py` lines 328-401) at reference time `t`: same
availability logic as the API fetch (including marking an unavailable paste
inactive), but a successful render never touches the record. -/
def view_paste (db : Store) (pid : String) (t : Int) : ViewResponse × Store :=
  match findPaste db pid with
  | none => (.notFoundPage "Paste Not Found", db)
  | some paste =>
      if !(paste.is_available t) then
        (.notFoundPage (classifyPage paste t), updateFirst db pid deactivate)
      else
        (.page pid paste.content, db)

/-- The `current_views` column of the first row with the given id
(0 when the id is absent). -/
def viewsOf (db : Store) (pid : String) : Int :=
  match findPaste db pid with
  | some p => p.current_views
  | none => 0

/-- A freshly created paste with only a view limit of `N`
(`ttl_seconds` absent), as inserted by the creation handler. -/
def viewLimitedPaste (pid c : String) (N : Nat) (ca : Int) : Paste :=
  { id := pid, content := c, ttl_seconds := none, max_views := some (N : Int),
    current_views := 0, created_at := ca, expires_at := none,
    is_active := true }

/-- The store after `k` sequential API fetches of `pid` at time `t`. -/
def fetchN (db : Store) (pid : String) (t : Int) : Nat → Store
  | 0 => db
  | k + 1 => (fetch_paste (fetchN db pid t k) pid t).2

/-- The view-limited paste after `k` sequential fetches: `min k N` views
consumed, active exactly while fewer than `N` were. -/
def vlState (pid c : String) (N : Nat) (ca : Int) (k : Nat) : Paste :=
  { viewLimitedPaste pid c N ca with
    current_views := ((min k N : Nat) : Int),
    is_active := decide (k < N) }

/-- C1 counterexample material: a time-expired paste. -/
def expiredPasteOne : Paste :=
  { id := "a", content := "hi", ttl_seconds := some 1, max_views := none,
    current_views := 0, created_at := 0, expires_at := some 1000000,
    is_active := true }

/-- An inactive stored record, used to witness monotonicity. -/
def inactivePasteW : Paste :=
  { id := "a", content := "c", ttl_seconds := none, max_views := none,
    current_views := 0, created_at := 0, expires_at := none, is_active := false }

/-- A two-view paste used to witness the fetch frame conditions. -/
def framePasteW : Paste :=
  { id := "w", content := "c", ttl_seconds := none, max_views := some 2,
    current_views := 0, created_at := 0, expires_at := none,
    is_active := true }

/-- A three-view paste used to witness the remaining-views behaviour. -/
def remPasteW : Paste :=
  { id := "r", content := "c", ttl_seconds := none, max_views := some 3,
    current_views := 0, created_at := 0, expires_at := none,
    is_active := true }

example : pyStrip "  hi " = "hi" := by decide
example : pyParseInt " -1_234 " = some (-1234) := by decide
example : pyParseInt "12a" = none := by decide
example : pyParseInt "" = none := by decide

theorem updateFirst_length (db : Store) (pid : String) (f : Paste → Paste) :
    (updateFirst db pid f).length = db.length := by
  induction db with
  | nil => rfl
  | cons p rest ih =>
      simp only [updateFirst]
      split <;> simp [ih]

theorem updateFirst_get? (db : Store) (pid : String) (f : Paste → Paste) (i : Nat) :
    (updateFirst db pid f).get? i = db.get? i ∨
      ∃ p, db.get? i = some p ∧ (p.id == pid) = true ∧
        (updateFirst db pid f).get? i = some (f p) := by
  induction db generalizing i with
  | nil => left; simp [updateFirst]
  | cons q rest ih =>
      simp only [updateFirst]
      by_cases hq : (q.id == pid) = true
      · rw [if_pos hq]
        cases i with
        | zero => right; exact ⟨q, rfl, hq, rfl⟩
        | succ j => left; simp
      · rw [if_neg hq]
        cases i with
        | zero => left; rfl
        | succ j => simpa using ih j

theorem findPaste_cons (q : Paste) (rest : Store) (pid : String) :
    findPaste (q :: rest) pid = if q.id == pid then some q else findPaste rest pid := by
  cases hq : (q.id == pid) <;> simp [findPaste, List.find?, hq]

theorem updateFirst_get?_of_find (db : Store) (pid : String) (f : Paste → Paste)
    (p0 : Paste) (h : findPaste db pid = some p0) (i : Nat) :
    (updateFirst db pid f).get? i = db.get? i ∨
      (db.get? i = some p0 ∧ (updateFirst db pid f).get? i = some (f p0)) := by
  induction db generalizing i with
  | nil => left; rfl
  | cons q rest ih =>
      by_cases hq : (q.id == pid) = true
      · have hq0 : q = p0 := by
          rw [findPaste_cons, if_pos hq] at h
          injection h
        subst hq0
        simp only [updateFirst, if_pos hq]
        cases i with
        | zero => right; exact ⟨rfl, rfl⟩
        | succ j => left; simp
      · have hrest : findPaste rest pid = some p0 := by
          rw [findPaste_cons, if_neg hq] at h
          exact h
        simp only [updateFirst, if_neg hq]
        cases i with
        | zero => left; rfl
        | succ j => simpa using ih hrest j

theorem findPaste_updateFirst (db : Store) (pid : String) (f : Paste → Paste)
    (hf : ∀ q, (q.id == pid) = true → ((f q).id == pid) = true) :
    findPaste (updateFirst db pid f) pid = (findPaste db pid).map f := by
  induction db with
  | nil => rfl
  | cons q rest ih =>
      by_cases hq : (q.id == pid) = true
      · simp only [updateFirst, if_pos hq, findPaste_cons, hf q hq, if_true, Option.map_some]
        simp [hq]
      · simp only [updateFirst, if_neg hq, findPaste_cons]
        exact ih

theorem findPaste_append_self (db : Store) (pid : String) (p : Paste)
    (h : findPaste db pid = none) (hp : (p.id == pid) = true) :
    findPaste (db ++ [p]) pid = some p := by
  induction db with
  | nil => simp [findPaste, List.find?, hp]
  | cons q rest ih =>
      rw [findPaste_cons] at h
      by_cases hq : (q.id == pid) = true
      · rw [if_pos hq] at h; exact absurd h (by simp)
      · rw [if_neg hq] at h
        rw [List.cons_append, findPaste_cons, if_neg hq]
        exact ih h

theorem fetch_paste_not_found (db : Store) (pid : String) (t : Int)
    (h : findPaste db pid = none) :
    fetch_paste db pid t = (.error 404 "Paste not found", db) := by
  simp [fetch_paste, h]

theorem fetch_paste_unavailable (db : Store) (pid : String) (t : Int) (p : Paste)
    (h : findPaste db pid = some p) (hn : p.is_available t = false) :
    fetch_paste db pid t = (.error 404 (classifyApi p t), updateFirst db pid deactivate) := by
  simp [fetch_paste, h, hn]

theorem fetch_paste_available (db : Store) (pid : String) (t : Int) (p : Paste)
    (h : findPaste db pid = some p) (ha : p.is_available t = true) :
    fetch_paste db pid t =
      (successPayload (bumpViews p), updateFirst db pid (fun _ => bumpViews p)) := by
  simp [fetch_paste, h, ha]

theorem findPaste_id (db : Store) (pid : String) (p : Paste)
    (h : findPaste db pid = some p) : (p.id == pid) = true := by
  have := List.find?_some h
  simpa using this

theorem digitChar_ne_plus (n : Nat) : ¬('+' = digitChar n) := by
  have h : n % 10 < 10 := Nat.mod_lt _ (by norm_num)
  unfold digitChar
  revert h
  generalize n % 10 = k
  intro h
  interval_cases k <;> decide

theorem plus_not_mem_isoBody (dt : DateTime) : '+' ∉ isoBody dt := by
  simp [isoBody, pad4, pad3, pad2, List.mem_append, List.mem_cons,
    digitChar_ne_plus]

theorem isPrefixOf_self (l : List Char) : l.isPrefixOf l = true := by
  induction l with
  | nil => rfl
  | cons c cs ih => simp [List.isPrefixOf, ih]

theorem listReplace_no_plus (ps repl : List Char) (pre : List Char)
    (hpre : '+' ∉ pre) :
    listReplace '+' ps repl (pre ++ '+' :: ps) = pre ++ repl := by
  induction pre with
  | nil =>
      simp only [List.nil_append]
      rw [listReplace, if_pos (isPrefixOf_self ('+' :: ps)), List.drop_length]
      rw [listReplace]
      simp
  | cons c cs ih =>
      have hc : ¬('+' = c) := fun hcc => hpre (by rw [hcc]; exact List.mem_cons_self _ _)
      have hcs : '+' ∉ cs := fun hm => hpre (List.mem_cons_of_mem _ hm)
      rw [List.cons_append, listReplace, if_neg ?hneg]
      · rw [ih hcs, List.cons_append]
      case hneg =>
        intro hpf
        simp only [List.isPrefixOf, Bool.and_eq_true, beq_iff_eq] at hpf
        exact hc hpf.1

theorem format_datetime_iso_canonical (dt : DateTime) :
    format_datetime_iso dt = isoCanonicalZ dt := by
  unfold format_datetime_iso isoCanonicalZ isoformatMillis
  rw [listReplace_no_plus _ _ _ (plus_not_mem_isoBody dt)]

theorem is_available_eq (p : Paste) (t : Int) :
    p.is_available t
      = (p.is_active && !p.is_expired t && !p.is_view_limit_reached) := by
  cases h1 : p.is_active <;> cases h2 : p.is_expired t <;>
    cases h3 : p.is_view_limit_reached <;>
    simp [Paste.is_available, h1, h2, h3]

theorem get_remaining_views_eq_some (p : Paste) (m : Int)
    (h : p.max_views = some m) :
    p.get_remaining_views = some (max 0 (m - p.current_views)) := by
  unfold Paste.get_remaining_views
  rw [h]

theorem get_remaining_views_eq_none (p : Paste) (h : p.max_views = none) :
    p.get_remaining_views = none := by
  unfold Paste.get_remaining_views
  rw [h]

theorem view_limit_eq_some (p : Paste) (m : Int) (h : p.max_views = some m) :
    p.is_view_limit_reached = decide (p.current_views ≥ m) := by
  unfold Paste.is_view_limit_reached
  rw [h]

theorem view_limit_eq_none (p : Paste) (h : p.max_views = none) :
    p.is_view_limit_reached = false := by
  unfold Paste.is_view_limit_reached
  rw [h]

theorem is_expired_eq_some (p : Paste) (t e : Int) (h : p.expires_at = some e) :
    p.is_expired t = decide (t ≥ e) := by
  unfold Paste.is_expired
  rw [h]

theorem is_expired_eq_none (p : Paste) (t : Int) (h : p.expires_at = none) :
    p.is_expired t = false := by
  unfold Paste.is_expired
  rw [h]

theorem validate_ttl_ge (d : PasteCreate) (T : Int)
    (hval : validate_paste_create d = true) (ht : d.ttl_seconds = some T) :
    1 ≤ T := by
  simp only [validate_paste_create, ttl_positive, ht, Bool.and_eq_true,
    Bool.not_eq_true', decide_eq_false_iff_not, not_lt] at hval
  exact hval.1.2

theorem validate_mv_ge (d : PasteCreate) (m : Int)
    (hval : validate_paste_create d = true) (hm : d.max_views = some m) :
    1 ≤ m := by
  simp only [validate_paste_create, max_views_positive, hm, Bool.and_eq_true,
    Bool.not_eq_true', decide_eq_false_iff_not, not_lt] at hval
  exact hval.2

theorem createdPaste_expires_some (d : PasteCreate) (pid : String)
    (now T : Int) (ht : d.ttl_seconds = some T) (hT : T ≠ 0) :
    (createdPaste d pid now).expires_at
      = some (calculate_expiry_time now T) := by
  simp [createdPaste, ht, hT]

theorem createdPaste_expires_none (d : PasteCreate) (pid : String) (now : Int)
    (ht : d.ttl_seconds = none) :
    (createdPaste d pid now).expires_at = none := by
  simp [createdPaste, ht]

/-- C7 is false as stated: the header value here parses as an integer, yet
with the toggle on the computed time is the wall clock, not the header's
instant - it is the first millisecond of year 10000, so `fromtimestamp`
raises `ValueError`, which the source catches and falls through. -/
theorem clock_override_out_of_range_cx :
    pyParseInt "253402300800000" = some 253402300800000
    ∧ get_current_time true (some "253402300800000") 7 = .now 7
    ∧ ClockOutcome.now 7 ≠ ClockOutcome.now (253402300800000 * 1000) :=
  ⟨by decide, by decide, by decide⟩

/-- C7 amended: the reference time is independent of the `x-test-now-ms`
header unless `TEST_MODE` is enabled. With the toggle off the computed time
is the wall clock regardless of the header; with the toggle on a parsed
integer header is honored (as `v * 1000` microseconds) exactly when its
instant is representable by a Python `datetime` (years 1-9999); an absent
or unparseable header falls back to the wall clock, as does a parsed value
outside the `datetime` range but within the platform's `time_t` bound (the
raised `ValueError`/`OSError` is caught); at or beyond that bound the
uncaught `OverflowError` escapes and no time is produced at all. -/
theorem clock_override_semantics (header : Option String) (wall : Int) :
    (∀ other, get_current_time false header wall
        = get_current_time false other wall)
    ∧ get_current_time false header wall = .now wall
    ∧ get_current_time true none wall = .now wall
    ∧ (∀ s, pyParseInt s = none →
        get_current_time true (some s) wall = .now wall)
    ∧ (∀ s v, pyParseInt s = some v →
        datetimeMinUs ≤ v * 1000 → v * 1000 ≤ datetimeMaxUs →
        get_current_time true (some s) wall = .now (v * 1000))
    ∧ (∀ s v, pyParseInt s = some v →
        -timetOverflowMs < v → v < timetOverflowMs →
        ¬(datetimeMinUs ≤ v * 1000 ∧ v * 1000 ≤ datetimeMaxUs) →
        get_current_time true (some s) wall = .now wall)
    ∧ (∀ s v, pyParseInt s = some v →
        timetOverflowMs ≤ v ∨ v ≤ -timetOverflowMs →
        get_current_time true (some s) wall = .raised) := by
  have hnonempty : ∀ s v, pyParseInt s = some v → s ≠ "" := by
    intro s v hv hs
    subst hs
    rw [show pyParseInt "" = none by decide] at hv
    cases hv
  refine ⟨fun other => rfl, rfl, rfl, ?_, ?_, ?_, ?_⟩
  · intro s hv
    by_cases hs : s = ""
    · subst hs; rfl
    · simp [get_current_time, hs, hv]
  · intro s v hv h1 h2
    have hs := hnonempty s v hv
    have hov : ¬(timetOverflowMs ≤ v ∨ v ≤ -timetOverflowMs) := by
      unfold timetOverflowMs
      unfold datetimeMinUs at h1
      unfold datetimeMaxUs at h2
      omega
    have hrange : datetimeMinUs ≤ v * 1000 ∧ v * 1000 ≤ datetimeMaxUs := ⟨h1, h2⟩
    simp [get_current_time, hs, hv, hov, hrange]
  · intro s v hv hlo hhi hnr
    have hs := hnonempty s v hv
    have hov : ¬(timetOverflowMs ≤ v ∨ v ≤ -timetOverflowMs) := by
      unfold timetOverflowMs at hlo hhi ⊢
      omega
    simp [get_current_time, hs, hv, hov, hnr]
  · intro s v hv hov
    have hs := hnonempty s v hv
    simp [get_current_time, hs, hv, hov]

/-- Witness for `clock_override_semantics` at concrete headers: an
in-range value honored, a malformed one and an out-of-datetime-range one
falling back, and a beyond-time_t one escaping. -/
theorem clock_override_semantics_witness :
    (pyParseInt "123" = some 123
      ∧ datetimeMinUs ≤ (123 : Int) * 1000
      ∧ (123 : Int) * 1000 ≤ datetimeMaxUs
      ∧ get_current_time true (some "123") 7 = .now (123 * 1000))
    ∧ (pyParseInt "12a" = none
      ∧ get_current_time true (some "12a") 7 = .now 7)
    ∧ (pyParseInt "253402300800000" = some 253402300800000
      ∧ get_current_time true (some "253402300800000") 7 = .now 7)
    ∧ (pyParseInt "9223372036854775808000" = some 9223372036854775808000
      ∧ get_current_time true (some "9223372036854775808000") 7 = .raised) :=
  ⟨⟨by decide, by decide, by decide,
    (clock_override_semantics (some "123") 7).2.2.2.2.1 "123" 123
      (by decide) (by decide) (by decide)⟩,
   ⟨by decide,
    (clock_override_semantics (some "12a") 7).2.2.2.1 "12a" (by decide)⟩,
   ⟨by decide,
    (clock_override_semantics (some "253402300800000") 7).2.2.2.2.2.1
      "253402300800000" 253402300800000 (by decide) (by decide) (by decide)
      (by decide)⟩,
   ⟨by decide,
    (clock_override_semantics (some "9223372036854775808000") 7).2.2.2.2.2.2
      "9223372036854775808000" 9223372036854775808000 (by decide)
      (Or.inl (by decide))⟩⟩

/-- C8 names a code bug: a creation request whose content is empty or
whitespace-only after trimming, or whose `ttl_seconds` or `max_views` is
supplied below 1, indeed stores no record, but the program answers 422 with
FastAPI's default `detail` body, not the 400 error body the claim and the
handler's own docstring prescribe, because a status-code-422 exception
handler never intercepts a `RequestValidationError`. This theorem evaluates
the program's actual behaviour on every such request. -/
theorem create_validation_answers_422 (db : Store) (d : PasteCreate)
    (pid : String) (now : Int) (base : String)
    (h : pyStrip d.content = "" ∨ (∃ t, d.ttl_seconds = some t ∧ t < 1)
        ∨ (∃ m, d.max_views = some m ∧ m < 1)) :
    (create_paste db d pid now base).1 = .validationError 422
    ∧ (create_paste db d pid now base).1 ≠ .error 400 "Invalid input"
    ∧ (create_paste db d pid now base).2 = db := by
  have hval : validate_paste_create d = false := by
    rcases h with hc | ⟨t, ht, hlt⟩ | ⟨m, hm, hlt⟩
    · simp [validate_paste_create, content_not_empty, hc]
    · simp [validate_paste_create, ttl_positive, ht, hlt]
    · simp [validate_paste_create, max_views_positive, hm, hlt]
  refine ⟨?_, ?_, ?_⟩ <;> simp [create_paste, hval]

/-- Witness for `create_validation_answers_422`: the spec scenario of a
whitespace-only body gets a 422 and stores nothing. -/
theorem create_validation_answers_422_witness :
    (pyStrip "   " = "" ∨ (∃ t, (none : Option Int) = some t ∧ t < 1)
        ∨ (∃ m, (none : Option Int) = some m ∧ m < 1))
    ∧ ((create_paste [] ⟨"   ", none, none⟩ "x" 0 "b").1 = .validationError 422
      ∧ (create_paste [] ⟨"   ", none, none⟩ "x" 0 "b").1
          ≠ .error 400 "Invalid input"
      ∧ (create_paste [] ⟨"   ", none, none⟩ "x" 0 "b").2 = []) :=
  ⟨Or.inl (by decide),
   create_validation_answers_422 [] ⟨"   ", none, none⟩ "x" 0 "b"
     (Or.inl (by decide))⟩

/-- C9: rendering a paste through the page path leaves `current_views` of
every stored record unchanged, whether the render succeeds or produces the
404 page variant. -/
theorem view_paste_preserves_views (db : Store) (pid : String) (t : Int) :
    ((view_paste db pid t).2.length = db.length)
    ∧ ∀ i, ((view_paste db pid t).2.get? i).map Paste.current_views
        = (db.get? i).map Paste.current_views := by
  cases hf : findPaste db pid with
  | none => simp [view_paste, hf]
  | some p =>
      cases ha : p.is_available t with
      | true => simp [view_paste, hf, ha]
      | false =>
          refine ⟨?_, ?_⟩
          · simp [view_paste, hf, ha, updateFirst_length]
          · intro i
            have hdb : (view_paste db pid t).2 = updateFirst db pid deactivate := by
              simp [view_paste, hf, ha]
            rw [hdb]
            rcases updateFirst_get? db pid deactivate i with hsame | ⟨q, hq, _, h2⟩
            · rw [hsame]
            · rw [h2, hq]; rfl

/-- C1 is false on the code: fetching an expired paste yields a 404 whose
body is the cause-specific message, not the uniform one the claim states. -/
theorem fetch_404_body_not_uniform :
    (fetch_paste [expiredPasteOne] "a" 1000000).1 = .error 404 "Paste has expired"
    ∧ (fetch_paste [expiredPasteOne] "a" 1000000).1 ≠ .error 404 "Paste not found" := by
  exact ⟨by decide, by decide⟩

/-- C1 amended: every failing fetch responds with HTTP status 404, but the
body is the uniform message only when the id is absent from the store; an
unavailable paste gets the cause-specific classification (expiry first, then
view limit, then a generic fallback), so the cause is exposed. -/
theorem fetch_failure_status_and_body (db : Store) (pid : String) (t : Int)
    (s : Nat) (m : String)
    (h : (fetch_paste db pid t).1 = .error s m) :
    s = 404
    ∧ (findPaste db pid = none → m = "Paste not found")
    ∧ (∀ p, findPaste db pid = some p →
        p.is_available t = false ∧ m = classifyApi p t) := by
  cases hf : findPaste db pid with
  | none =>
      rw [fetch_paste_not_found db pid t hf] at h
      simp only [FetchResponse.error.injEq] at h
      exact ⟨h.1.symm, fun _ => h.2.symm, fun p hp => by simp [hf] at hp⟩
  | some p =>
      cases ha : p.is_available t with
      | true =>
          rw [fetch_paste_available db pid t p hf ha] at h
          simp [successPayload] at h
      | false =>
          rw [fetch_paste_unavailable db pid t p hf ha] at h
          simp only [FetchResponse.error.injEq] at h
          refine ⟨h.1.symm, fun hn => by simp [hf] at hn, fun q hq => ?_⟩
          have hpq : p = q := by injection hq
          subst hpq
          exact ⟨ha, h.2.symm⟩

theorem is_active_of_available (p : Paste) (t : Int)
    (h : p.is_available t = true) : p.is_active = true := by
  cases hb : p.is_active
  · simp [Paste.is_available, hb] at h
  · rfl

theorem updateFirst_of_not_found (db : Store) (pid : String) (f : Paste → Paste)
    (h : findPaste db pid = none) : updateFirst db pid f = db := by
  induction db with
  | nil => rfl
  | cons q rest ih =>
      rw [findPaste_cons] at h
      by_cases hq : (q.id == pid) = true
      · rw [if_pos hq] at h; cases h
      · rw [if_neg hq] at h
        simp only [updateFirst, if_neg hq]
        rw [ih h]

theorem create_paste_inserts (db : Store) (d : PasteCreate) (pid : String)
    (now : Int) (base : String)
    (hval : validate_paste_create d = true) (hcol : findPaste db pid = none) :
    create_paste db d pid now base
      = (.created pid (base ++ "/p/" ++ pid), db ++ [createdPaste d pid now]) := by
  simp [create_paste, hval, hcol]

theorem create_paste_db_cases (db : Store) (d : PasteCreate) (pid : String)
    (now : Int) (base : String) :
    (create_paste db d pid now base).2 = db
    ∨ (create_paste db d pid now base).2 = db ++ [createdPaste d pid now] := by
  unfold create_paste
  split
  · left; rfl
  · split
    · left; rfl
    · right; rfl

theorem bumpViews_spec (p : Paste) :
    (bumpViews p).id = p.id ∧ (bumpViews p).content = p.content
    ∧ (bumpViews p).ttl_seconds = p.ttl_seconds
    ∧ (bumpViews p).max_views = p.max_views
    ∧ (bumpViews p).created_at = p.created_at
    ∧ (bumpViews p).expires_at = p.expires_at
    ∧ (bumpViews p).current_views = p.current_views + 1
    ∧ ((bumpViews p).is_active = true → p.is_active = true) := by
  simp only [bumpViews]
  split <;> simp

theorem viewsOf_eq (db : Store) (pid : String) (p : Paste)
    (h : findPaste db pid = some p) : viewsOf db pid = p.current_views := by
  unfold viewsOf
  rw [h]

theorem fetch_paste_db_cases (db : Store) (pid : String) (t : Int) :
    (fetch_paste db pid t).2 = db
    ∨ (∃ p0, findPaste db pid = some p0
        ∧ (fetch_paste db pid t).2 = updateFirst db pid deactivate)
    ∨ ∃ p0, findPaste db pid = some p0 ∧ p0.is_available t = true
        ∧ (fetch_paste db pid t).2 = updateFirst db pid (fun _ => bumpViews p0) := by
  cases hf : findPaste db pid with
  | none => left; rw [fetch_paste_not_found db pid t hf]
  | some p =>
      cases ha : p.is_available t with
      | false =>
          right; left
          exact ⟨p, rfl, by rw [fetch_paste_unavailable db pid t p hf ha]⟩
      | true =>
          right; right
          exact ⟨p, rfl, ha, by rw [fetch_paste_available db pid t p hf ha]⟩

/-- C4: `is_active` is monotone. A record that is inactive stays inactive
(at its index, with all the record's identity) across an API fetch, a page
render and a creation; and once a fetch has answered 404 for an id, every
later fetch of that id answers 404 at every reference time. -/
theorem is_active_monotone (db : Store) (pid : String) (t : Int)
    (d : PasteCreate) (now : Int) (base : String) (i : Nat) (p : Paste)
    (hp : db.get? i = some p) (hinact : p.is_active = false) :
    (∃ p', (fetch_paste db pid t).2.get? i = some p' ∧ p'.is_active = false)
    ∧ (∃ p', (view_paste db pid t).2.get? i = some p' ∧ p'.is_active = false)
    ∧ (∃ p', (create_paste db d pid now base).2.get? i = some p' ∧ p'.is_active = false)
    ∧ (∀ m db', fetch_paste db pid t = (.error 404 m, db') →
        ∀ t', ∃ m', (fetch_paste db' pid t').1 = .error 404 m') := by
  have hlen : i < db.length := by
    by_contra hc
    push_neg at hc
    rw [List.get?_eq_none.mpr hc] at hp
    cases hp
  refine ⟨?_, ?_, ?_, ?_⟩
  · -- API fetch
    rcases fetch_paste_db_cases db pid t with hdb | ⟨p0, hf0, hdb⟩ | ⟨p0, hf0, ha0, hdb⟩
    · exact ⟨p, by rw [hdb, hp], hinact⟩
    · rw [hdb]
      rcases updateFirst_get?_of_find db pid deactivate p0 hf0 i with hsame | ⟨hi0, hrepl⟩
      · exact ⟨p, by rw [hsame, hp], hinact⟩
      · exact ⟨deactivate p0, hrepl, rfl⟩
    · rw [hdb]
      rcases updateFirst_get?_of_find db pid (fun _ => bumpViews p0) p0 hf0 i with hsame | ⟨hi0, hrepl⟩
      · exact ⟨p, by rw [hsame, hp], hinact⟩
      · rw [hp] at hi0
        have hpp : p = p0 := by injection hi0
        rw [hpp, is_active_of_available p0 t ha0] at hinact
        cases hinact
  · -- page render
    have hcases : (view_paste db pid t).2 = db
        ∨ ∃ p0, findPaste db pid = some p0
            ∧ (view_paste db pid t).2 = updateFirst db pid deactivate := by
      cases hf : findPaste db pid with
      | none => left; simp [view_paste, hf]
      | some q =>
          cases ha : q.is_available t with
          | false => right; exact ⟨q, rfl, by simp [view_paste, hf, ha]⟩
          | true => left; simp [view_paste, hf, ha]
    rcases hcases with hdb | ⟨p0, hf0, hdb⟩
    · exact ⟨p, by rw [hdb, hp], hinact⟩
    · rw [hdb]
      rcases updateFirst_get?_of_find db pid deactivate p0 hf0 i with hsame | ⟨hi0, hrepl⟩
      · exact ⟨p, by rw [hsame, hp], hinact⟩
      · exact ⟨deactivate p0, hrepl, rfl⟩
  · -- creation
    rcases create_paste_db_cases db d pid now base with hdb | hdb
    · exact ⟨p, by rw [hdb, hp], hinact⟩
    · refine ⟨p, ?_, hinact⟩
      rw [hdb, List.get?_append hlen]
      exact hp
  · -- a 404 answer persists
    intro m db' h t'
    cases hf : findPaste db pid with
    | none =>
        rw [fetch_paste_not_found db pid t hf] at h
        have hdb : db = db' := congrArg Prod.snd h
        subst hdb
        exact ⟨"Paste not found", by rw [fetch_paste_not_found db pid t' hf]⟩
    | some p0 =>
        cases ha : p0.is_available t with
        | true =>
            rw [fetch_paste_available db pid t p0 hf ha] at h
            have hfst := congrArg Prod.fst h
            simp [successPayload] at hfst
        | false =>
            rw [fetch_paste_unavailable db pid t p0 hf ha] at h
            have hdb : updateFirst db pid deactivate = db' := congrArg Prod.snd h
            subst hdb
            have hfind : findPaste (updateFirst db pid deactivate) pid
                = some (deactivate p0) := by
              rw [findPaste_updateFirst db pid deactivate (fun q hq => hq), hf]
              rfl
            have hunavail : (deactivate p0).is_available t' = false := by
              simp [Paste.is_available, deactivate]
            refine ⟨classifyApi (deactivate p0) t', ?_⟩
            rw [fetch_paste_unavailable _ pid t' _ hfind hunavail]

/-- Witness for `is_active_monotone` on a concrete inactive record. -/
theorem is_active_monotone_witness :
    ([inactivePasteW] : Store).get? 0 = some inactivePasteW
    ∧ inactivePasteW.is_active = false
    ∧ (∃ p', (fetch_paste [inactivePasteW] "a" 0).2.get? 0 = some p'
        ∧ p'.is_active = false) :=
  ⟨rfl, rfl,
   (is_active_monotone [inactivePasteW] "a" 0 ⟨"c", none, none⟩ 0 "b" 0
      inactivePasteW rfl rfl).1⟩

/-- C10: an API fetch mutates at most `current_views` and `is_active` of
the fetched record. On a success the fetched record's `current_views` rises
by exactly 1 and `is_active` can only fall; on a failure no view count
changes and the only possible mutation is `is_active` becoming false.
Records whose id differs from the requested one are untouched, and the
identity columns (`id`, `content`, `ttl_seconds`, `max_views`,
`created_at`, `expires_at`) are never modified. -/
theorem fetch_frame_conditions (db : Store) (pid : String) (t : Int)
    (r : FetchResponse) (db' : Store) (h : fetch_paste db pid t = (r, db')) :
    db'.length = db.length
    ∧ (∀ i p p', db.get? i = some p → db'.get? i = some p' →
        p'.id = p.id ∧ p'.content = p.content ∧ p'.ttl_seconds = p.ttl_seconds
        ∧ p'.max_views = p.max_views ∧ p'.created_at = p.created_at
        ∧ p'.expires_at = p.expires_at
        ∧ (p'.is_active = true → p.is_active = true)
        ∧ (p.id ≠ pid → p' = p)
        ∧ (p'.current_views = p.current_views
            ∨ p'.current_views = p.current_views + 1))
    ∧ (r.isSuccess = true → viewsOf db' pid = viewsOf db pid + 1)
    ∧ (r.isSuccess = false → viewsOf db' pid = viewsOf db pid
        ∧ ∀ i p p', db.get? i = some p → db'.get? i = some p' →
            p'.current_views = p.current_views) := by
  cases hf : findPaste db pid with
  | none =>
      rw [fetch_paste_not_found db pid t hf] at h
      have hr : FetchResponse.error 404 "Paste not found" = r := congrArg Prod.fst h
      have hdb : db = db' := congrArg Prod.snd h
      subst hdb
      subst hr
      refine ⟨rfl, ?_, ?_, ?_⟩
      · intro i p p' hp hp'
        rw [hp] at hp'
        have hpp : p = p' := by injection hp'
        subst hpp
        exact ⟨rfl, rfl, rfl, rfl, rfl, rfl, fun hh => hh, fun _ => rfl, Or.inl rfl⟩
      · intro hs; cases hs
      · exact fun _ => ⟨rfl, fun i p p' hp hp' => by
          rw [hp] at hp'
          have hpp : p = p' := by injection hp'
          subst hpp
          rfl⟩
  | some p0 =>
      cases ha : p0.is_available t with
      | false =>
          rw [fetch_paste_unavailable db pid t p0 hf ha] at h
          have hr : FetchResponse.error 404 (classifyApi p0 t) = r := congrArg Prod.fst h
          have hdb : updateFirst db pid deactivate = db' := congrArg Prod.snd h
          subst hdb
          subst hr
          have hfind : findPaste (updateFirst db pid deactivate) pid
              = some (deactivate p0) := by
            rw [findPaste_updateFirst db pid deactivate (fun q hq => hq), hf]
            rfl
          refine ⟨updateFirst_length db pid deactivate, ?_, ?_, ?_⟩
          · intro i p p' hp hp'
            rcases updateFirst_get?_of_find db pid deactivate p0 hf i with hsame | ⟨hi0, hrepl⟩
            · rw [hsame, hp] at hp'
              have hpp : p = p' := by injection hp'
              subst hpp
              exact ⟨rfl, rfl, rfl, rfl, rfl, rfl, fun hh => hh, fun _ => rfl, Or.inl rfl⟩
            · rw [hp] at hi0
              have hpp : p = p0 := by injection hi0
              subst hpp
              rw [hrepl] at hp'
              have hpp' : deactivate p = p' := by injection hp'
              subst hpp'
              refine ⟨rfl, rfl, rfl, rfl, rfl, rfl,
                fun hh => by simp [deactivate] at hh, ?_, Or.inl rfl⟩
              intro hne
              exact absurd (eq_of_beq (findPaste_id db pid p hf)) hne
          · intro hs; cases hs
          · intro _
            refine ⟨?_, ?_⟩
            · rw [viewsOf_eq _ _ _ hfind, viewsOf_eq _ _ _ hf]
              rfl
            · intro i p p' hp hp'
              rcases updateFirst_get?_of_find db pid deactivate p0 hf i with hsame | ⟨hi0, hrepl⟩
              · rw [hsame, hp] at hp'
                have hpp : p = p' := by injection hp'
                subst hpp; rfl
              · rw [hp] at hi0
                have hpp : p = p0 := by injection hi0
                subst hpp
                rw [hrepl] at hp'
                have hpp' : deactivate p = p' := by injection hp'
                subst hpp'; rfl
      | true =>
          rw [fetch_paste_available db pid t p0 hf ha] at h
          have hr : successPayload (bumpViews p0) = r := congrArg Prod.fst h
          have hdb : updateFirst db pid (fun _ => bumpViews p0) = db' := congrArg Prod.snd h
          subst hdb
          subst hr
          have hb := bumpViews_spec p0
          have hbid : ((bumpViews p0).id == pid) = true := by
            rw [hb.1]; exact findPaste_id db pid p0 hf
          have hfind : findPaste (updateFirst db pid (fun _ => bumpViews p0)) pid
              = some (bumpViews p0) := by
            rw [findPaste_updateFirst db pid (fun _ => bumpViews p0) (fun q _ => hbid), hf]
            rfl
          refine ⟨updateFirst_length db pid _, ?_, ?_, ?_⟩
          · intro i p p' hp hp'
            rcases updateFirst_get?_of_find db pid (fun _ => bumpViews p0) p0 hf i with hsame | ⟨hi0, hrepl⟩
            · rw [hsame, hp] at hp'
              have hpp : p = p' := by injection hp'
              subst hpp
              exact ⟨rfl, rfl, rfl, rfl, rfl, rfl, fun hh => hh, fun _ => rfl, Or.inl rfl⟩
            · rw [hp] at hi0
              have hpp : p = p0 := by injection hi0
              subst hpp
              rw [hrepl] at hp'
              have hpp' : bumpViews p = p' := by injection hp'
              subst hpp'
              refine ⟨hb.1, hb.2.1, hb.2.2.1, hb.2.2.2.1, hb.2.2.2.2.1,
                hb.2.2.2.2.2.1, hb.2.2.2.2.2.2.2, ?_, Or.inr hb.2.2.2.2.2.2.1⟩
              intro hne
              exact absurd (eq_of_beq (findPaste_id db pid p hf)) hne
          · intro _
            rw [viewsOf_eq _ _ _ hfind, viewsOf_eq _ _ _ hf]
            exact hb.2.2.2.2.2.2.1
          · intro hs
            rw [show (successPayload (bumpViews p0)).isSuccess = true from rfl] at hs
            cases hs

/-- Witness for `fetch_frame_conditions`: a concrete successful fetch. -/
theorem fetch_frame_conditions_witness :
    fetch_paste [framePasteW] "w" 5
      = (FetchResponse.success "c" (some 1) none,
         [{ framePasteW with current_views := 1 }])
    ∧ ([{ framePasteW with current_views := 1 }] : Store).length
        = ([framePasteW] : Store).length :=
  ⟨by decide,
   (fetch_frame_conditions [framePasteW] "w" 5
      (FetchResponse.success "c" (some 1) none)
      [{ framePasteW with current_views := 1 }] (by decide)).1⟩

/-- Witness for `fetch_failure_status_and_body` on a missing id. -/
theorem fetch_failure_status_and_body_witness :
    (fetch_paste [] "a" 0).1 = FetchResponse.error 404 "Paste not found"
    ∧ (404 = 404
       ∧ (findPaste ([] : Store) "a" = none → "Paste not found" = "Paste not found")
       ∧ (∀ p, findPaste ([] : Store) "a" = some p →
           p.is_available 0 = false ∧ "Paste not found" = classifyApi p 0)) :=
  ⟨by decide, fetch_failure_status_and_body [] "a" 0 404 "Paste not found" (by decide)⟩

/-- C6: `expires_at` is computed once at creation as
`created_at + ttl_seconds` (in microseconds) when `ttl_seconds` is supplied
and is absent otherwise; a fetch never modifies any record's `expires_at`;
and in the fetch response it is serialized exactly as the ISO-8601
millisecond form with a `Z` suffix, or `null` when absent. -/
theorem expires_at_once_and_serialized (db : Store) (d : PasteCreate)
    (pid : String) (now : Int) (base : String)
    (hval : validate_paste_create d = true)
    (hfresh : findPaste db pid = none) :
    (∀ T, d.ttl_seconds = some T →
        (createdPaste d pid now).expires_at = some (now + T * 1000000))
    ∧ (d.ttl_seconds = none → (createdPaste d pid now).expires_at = none)
    ∧ (create_paste db d pid now base).2 = db ++ [createdPaste d pid now]
    ∧ (∀ db2 pid2 t2 i p p', db2.get? i = some p →
        (fetch_paste db2 pid2 t2).2.get? i = some p' →
          p'.expires_at = p.expires_at)
    ∧ (∀ dt, format_datetime_iso dt = isoCanonicalZ dt)
    ∧ (∀ db2 pid2 t2 c rv ea db2',
        fetch_paste db2 pid2 t2 = (.success c rv ea, db2') →
          ∃ q, findPaste db2 pid2 = some q
            ∧ ea = q.expires_at.map
                (fun e => format_datetime_iso (datetimeOfMicros e))
            ∧ (ea = none ↔ q.expires_at = none)) := by
  refine ⟨?_, ?_, ?_, ?_, ?_, ?_⟩
  · intro T hT
    have h1 : 1 ≤ T := validate_ttl_ge d T hval hT
    rw [createdPaste_expires_some d pid now T hT (by omega)]
    rfl
  · exact createdPaste_expires_none d pid now
  · exact congrArg Prod.snd (create_paste_inserts db d pid now base hval hfresh)
  · intro db2 pid2 t2 i p p' hp hp'
    rcases fetch_paste_db_cases db2 pid2 t2 with hdb | ⟨p0, hf0, hdb⟩ | ⟨p0, hf0, ha0, hdb⟩
    · rw [hdb, hp] at hp'
      have hpp : p = p' := by injection hp'
      rw [← hpp]
    · rw [hdb] at hp'
      rcases updateFirst_get?_of_find db2 pid2 deactivate p0 hf0 i with hs | ⟨hi0, hr⟩
      · rw [hs, hp] at hp'
        have hpp : p = p' := by injection hp'
        rw [← hpp]
      · rw [hp] at hi0
        have h0 : p = p0 := by injection hi0
        rw [hr] at hp'
        have h1 : deactivate p0 = p' := by injection hp'
        rw [← h1, h0]
        rfl
    · rw [hdb] at hp'
      rcases updateFirst_get?_of_find db2 pid2 (fun _ => bumpViews p0) p0 hf0 i with hs | ⟨hi0, hr⟩
      · rw [hs, hp] at hp'
        have hpp : p = p' := by injection hp'
        rw [← hpp]
      · rw [hp] at hi0
        have h0 : p = p0 := by injection hi0
        rw [hr] at hp'
        have h1 : bumpViews p0 = p' := by injection hp'
        rw [← h1, h0]
        exact (bumpViews_spec p0).2.2.2.2.2.1
  · exact format_datetime_iso_canonical
  · intro db2 pid2 t2 c rv ea db2' h
    cases hf : findPaste db2 pid2 with
    | none =>
        rw [fetch_paste_not_found _ _ _ hf] at h
        exact absurd (congrArg Prod.fst h) (by simp)
    | some q =>
        cases ha : q.is_available t2 with
        | false =>
            rw [fetch_paste_unavailable _ _ _ _ hf ha] at h
            exact absurd (congrArg Prod.fst h) (by simp)
        | true =>
            rw [fetch_paste_available _ _ _ _ hf ha] at h
            have hr := congrArg Prod.fst h
            simp only [successPayload, FetchResponse.success.injEq] at hr
            refine ⟨q, rfl, ?_, ?_⟩
            · rw [← hr.2.2, (bumpViews_spec q).2.2.2.2.2.1]
            · rw [← hr.2.2, (bumpViews_spec q).2.2.2.2.2.1]
              exact Option.map_eq_none'

/-- Witness for `expires_at_once_and_serialized` at a concrete creation. -/
theorem expires_at_once_and_serialized_witness :
    validate_paste_create ⟨"hi", some 3600, none⟩ = true
    ∧ findPaste ([] : Store) "p1" = none
    ∧ (createdPaste ⟨"hi", some 3600, none⟩ "p1" 0).expires_at
        = some (0 + 3600 * 1000000) :=
  ⟨by decide, rfl,
   (expires_at_once_and_serialized [] ⟨"hi", some 3600, none⟩ "p1" 0 "b"
      (by decide) rfl).1 3600 rfl⟩

/-- C3: `is_expired` holds exactly when `expires_at` is present and the
reference time has reached it (inclusive boundary; absent `expires_at` never
expires); and a paste created with `ttl_seconds = T` answers 404 to a fetch
at `created_at + T` (in microseconds) or later, while a fetch strictly
before that instant succeeds and returns the content. -/
theorem expiry_semantics (p : Paste) (now : Int) (db : Store)
    (d : PasteCreate) (pid : String) (ca t : Int) (base : String) (T : Int)
    (hval : validate_paste_create d = true)
    (httl : d.ttl_seconds = some T)
    (hfresh : findPaste db pid = none) :
    (p.is_expired now = true ↔ ∃ e, p.expires_at = some e ∧ now ≥ e)
    ∧ (t ≥ ca + T * 1000000 →
        (fetch_paste ((create_paste db d pid ca base).2) pid t).1
          = .error 404 "Paste has expired")
    ∧ (t < ca + T * 1000000 →
        ∃ rv ea, (fetch_paste ((create_paste db d pid ca base).2) pid t).1
          = .success d.content rv ea) := by
  have hT1 : 1 ≤ T := validate_ttl_ge d T hval httl
  have hdb1 : (create_paste db d pid ca base).2 = db ++ [createdPaste d pid ca] :=
    congrArg Prod.snd (create_paste_inserts db d pid ca base hval hfresh)
  have hfind : findPaste (db ++ [createdPaste d pid ca]) pid
      = some (createdPaste d pid ca) :=
    findPaste_append_self db pid _ hfresh (beq_self_eq_true pid)
  have hea : (createdPaste d pid ca).expires_at
      = some (calculate_expiry_time ca T) :=
    createdPaste_expires_some d pid ca T httl (by omega)
  refine ⟨?_, ?_, ?_⟩
  · constructor
    · intro h
      cases he : p.expires_at with
      | none => rw [is_expired_eq_none p now he] at h; cases h
      | some e =>
          rw [is_expired_eq_some p now e he] at h
          exact ⟨e, rfl, of_decide_eq_true h⟩
    · rintro ⟨e, he, hle⟩
      rw [is_expired_eq_some p now e he]
      exact decide_eq_true hle
  · intro ht
    have hexp : (createdPaste d pid ca).is_expired t = true := by
      rw [is_expired_eq_some _ t _ hea]
      exact decide_eq_true (by unfold calculate_expiry_time; omega)
    have hunav : (createdPaste d pid ca).is_available t = false := by
      rw [is_available_eq, hexp]
      simp
    rw [hdb1, fetch_paste_unavailable _ _ _ _ hfind hunav]
    unfold classifyApi
    rw [hexp]
    simp
  · intro ht
    have hexp : (createdPaste d pid ca).is_expired t = false := by
      rw [is_expired_eq_some _ t _ hea]
      exact decide_eq_false (by unfold calculate_expiry_time; omega)
    have hlim : (createdPaste d pid ca).is_view_limit_reached = false := by
      cases hm : d.max_views with
      | none =>
          exact view_limit_eq_none _ (by simp [createdPaste, hm])
      | some m =>
          have hm1 : 1 ≤ m := validate_mv_ge d m hval hm
          rw [view_limit_eq_some _ m (by simp [createdPaste, hm])]
          exact decide_eq_false (by simp [createdPaste]; omega)
    have hav : (createdPaste d pid ca).is_available t = true := by
      rw [is_available_eq, hexp, hlim]
      simp [createdPaste]
    rw [hdb1, fetch_paste_available _ _ _ _ hfind hav]
    refine ⟨(bumpViews (createdPaste d pid ca)).get_remaining_views,
      ((bumpViews (createdPaste d pid ca)).expires_at).map
        (fun e => format_datetime_iso (datetimeOfMicros e)), ?_⟩
    show successPayload (bumpViews (createdPaste d pid ca))
        = FetchResponse.success d.content _ _
    unfold successPayload
    rw [(bumpViews_spec (createdPaste d pid ca)).2.1]
    rfl

/-- Witness for `expiry_semantics` at a concrete creation and boundary. -/
theorem expiry_semantics_witness :
    validate_paste_create ⟨"hi", some 1, none⟩ = true
    ∧ (⟨"hi", some 1, none⟩ : PasteCreate).ttl_seconds = some 1
    ∧ findPaste ([] : Store) "p1" = none
    ∧ ((1000000 : Int) ≥ 0 + 1 * 1000000 →
        (fetch_paste ((create_paste [] ⟨"hi", some 1, none⟩ "p1" 0 "b").2) "p1" 1000000).1
          = .error 404 "Paste has expired") :=
  ⟨by decide, rfl, rfl,
   (expiry_semantics (⟨"p", "c", none, none, 0, 0, none, true⟩ : Paste) 0 []
      ⟨"hi", some 1, none⟩ "p1" 0 1000000 "b" 1 (by decide) rfl rfl).2.1⟩

/-- C5: `get_remaining_views` is absent exactly when `max_views` is absent
and otherwise equals `max 0 (max_views - current_views)`; across two
successive successful fetches of the same id the returned value drops by
exactly 1, and a returned value is never negative. -/
theorem remaining_views_semantics (p : Paste) (db : Store) (pid : String)
    (t t' : Int) (c c' : String) (rv rv' : Option Int) (ea ea' : Option String)
    (db1 db2 : Store)
    (h1 : fetch_paste db pid t = (.success c rv ea, db1))
    (h2 : fetch_paste db1 pid t' = (.success c' rv' ea', db2)) :
    (p.get_remaining_views = none ↔ p.max_views = none)
    ∧ (∀ m, p.max_views = some m →
        p.get_remaining_views = some (max 0 (m - p.current_views)))
    ∧ (∀ v, rv = some v → 0 ≤ v)
    ∧ (∀ v, rv = some v → 1 ≤ v ∧ rv' = some (v - 1)) := by
  obtain ⟨q, hfq, haq, hrv, hdb1⟩ :
      ∃ q, findPaste db pid = some q ∧ q.is_available t = true
        ∧ rv = (bumpViews q).get_remaining_views
        ∧ db1 = updateFirst db pid (fun _ => bumpViews q) := by
    cases hf : findPaste db pid with
    | none =>
        rw [fetch_paste_not_found _ _ _ hf] at h1
        exact absurd (congrArg Prod.fst h1) (by simp)
    | some q =>
        cases ha : q.is_available t with
        | false =>
            rw [fetch_paste_unavailable _ _ _ _ hf ha] at h1
            exact absurd (congrArg Prod.fst h1) (by simp)
        | true =>
            rw [fetch_paste_available _ _ _ _ hf ha] at h1
            have hr := congrArg Prod.fst h1
            simp only [successPayload, FetchResponse.success.injEq] at hr
            exact ⟨q, rfl, ha, hr.2.1.symm, (congrArg Prod.snd h1).symm⟩
  have hbid : ((bumpViews q).id == pid) = true := by
    rw [(bumpViews_spec q).1]
    exact findPaste_id db pid q hfq
  have hf1 : findPaste db1 pid = some (bumpViews q) := by
    rw [hdb1, findPaste_updateFirst db pid _ (fun r _ => hbid), hfq]
    rfl
  obtain ⟨haq2, hrv'⟩ : (bumpViews q).is_available t' = true
      ∧ rv' = (bumpViews (bumpViews q)).get_remaining_views := by
    cases ha : (bumpViews q).is_available t' with
    | false =>
        rw [fetch_paste_unavailable _ _ _ _ hf1 ha] at h2
        exact absurd (congrArg Prod.fst h2) (by simp)
    | true =>
        rw [fetch_paste_available _ _ _ _ hf1 ha] at h2
        have hr := congrArg Prod.fst h2
        simp only [successPayload, FetchResponse.success.injEq] at hr
        exact ⟨rfl, hr.2.1.symm⟩
  refine ⟨?_, ?_, ?_, ?_⟩
  · cases hm : p.max_views with
    | none => rw [get_remaining_views_eq_none p hm]
    | some m => rw [get_remaining_views_eq_some p m hm]; simp
  · intro m hm
    exact get_remaining_views_eq_some p m hm
  · intro v hv
    rw [hrv] at hv
    cases hm : (bumpViews q).max_views with
    | none => rw [get_remaining_views_eq_none _ hm] at hv; cases hv
    | some m =>
        rw [get_remaining_views_eq_some _ m hm] at hv
        have hveq : max 0 (m - (bumpViews q).current_views) = v := by injection hv
        rw [← hveq]
        exact le_max_left _ _
  · intro v hv
    have hnl : (bumpViews q).is_view_limit_reached = false := by
      rw [is_available_eq] at haq2
      simp only [Bool.and_eq_true, Bool.not_eq_true'] at haq2
      exact haq2.2
    rw [hrv] at hv
    cases hm : (bumpViews q).max_views with
    | none => rw [get_remaining_views_eq_none _ hm] at hv; cases hv
    | some m =>
        rw [get_remaining_views_eq_some _ m hm] at hv
        have hveq : max 0 (m - (bumpViews q).current_views) = v := by injection hv
        have hlt : ¬((bumpViews q).current_views ≥ m) := by
          rw [view_limit_eq_some _ m hm] at hnl
          exact of_decide_eq_false hnl
        have hx : (0:Int) ≤ m - (bumpViews q).current_views := by omega
        rw [max_eq_right hx] at hveq
        have hb2m : (bumpViews (bumpViews q)).max_views = some m := by
          rw [(bumpViews_spec (bumpViews q)).2.2.2.1]
          exact hm
        have hb2cv : (bumpViews (bumpViews q)).current_views
            = (bumpViews q).current_views + 1 :=
          (bumpViews_spec (bumpViews q)).2.2.2.2.2.2.1
        rw [hrv', get_remaining_views_eq_some _ m hb2m, hb2cv]
        have hy : (0:Int) ≤ m - ((bumpViews q).current_views + 1) := by omega
        rw [max_eq_right hy]
        refine ⟨by omega, ?_⟩
        have heq2 : m - ((bumpViews q).current_views + 1) = v - 1 := by omega
        rw [heq2]

/-- Witness for `remaining_views_semantics`: two successive fetches of a
three-view paste return remaining views 2 then 1. -/
theorem remaining_views_semantics_witness :
    fetch_paste [remPasteW] "r" 0
      = (FetchResponse.success "c" (some 2) none,
         [{ remPasteW with current_views := 1 }])
    ∧ fetch_paste [{ remPasteW with current_views := 1 }] "r" 0
      = (FetchResponse.success "c" (some 1) none,
         [{ remPasteW with current_views := 2 }])
    ∧ (∀ v, (some (2:Int)) = some v → 1 ≤ v ∧ (some (1:Int)) = some (v - 1)) :=
  ⟨by decide, by decide,
   (remaining_views_semantics remPasteW [remPasteW] "r" 0 0 "c" "c"
      (some 2) (some 1) none none
      [{ remPasteW with current_views := 1 }]
      [{ remPasteW with current_views := 2 }] (by decide) (by decide)).2.2.2⟩

theorem fetch_vlState_step (N : Nat) (pid c : String)
    (ca t : Int) (k : Nat) :
    fetch_paste [vlState pid c N ca k] pid t
      = ((if k < N
            then FetchResponse.success c (some ((N : Int) - (k : Int) - 1)) none
            else FetchResponse.error 404 "View limit exceeded"),
         [vlState pid c N ca (k + 1)]) := by
  have hid : ((vlState pid c N ca k).id == pid) = true := beq_self_eq_true pid
  have hfind : findPaste [vlState pid c N ca k] pid
      = some (vlState pid c N ca k) := by
    rw [findPaste_cons, if_pos hid]
  by_cases hk : k < N
  · have hmink : min k N = k := Nat.min_eq_left (Nat.le_of_lt hk)
    have hmink1 : min (k + 1) N = k + 1 := Nat.min_eq_left (by omega)
    have hcv : (vlState pid c N ca k).current_views = ((k : Nat) : Int) := by
      simp [vlState, hmink]
    have hlimf : (vlState pid c N ca k).is_view_limit_reached = false := by
      rw [view_limit_eq_some _ ((N : Nat) : Int) rfl, hcv]
      exact decide_eq_false (by exact_mod_cast Nat.not_le.mpr hk)
    have hactt : (vlState pid c N ca k).is_active = true := by
      simp [vlState, hk]
    have havail : (vlState pid c N ca k).is_available t = true := by
      rw [is_available_eq, hactt, hlimf, is_expired_eq_none _ t rfl]
      rfl
    rw [fetch_paste_available _ _ _ _ hfind havail]
    have hupd : updateFirst [vlState pid c N ca k] pid
        (fun _ => bumpViews (vlState pid c N ca k))
        = [bumpViews (vlState pid c N ca k)] := by
      simp [updateFirst, hid]
    have hbump : bumpViews (vlState pid c N ca k) = vlState pid c N ca (k + 1) := by
      simp only [bumpViews]
      split
      · rename_i hlr
        rw [view_limit_eq_some _ ((N : Nat) : Int) rfl] at hlr
        have hge := of_decide_eq_true hlr
        have hge2 : N ≤ k + 1 := by
          have : ((N : Nat) : Int) ≤ ((min k N : Nat) : Int) + 1 := hge
          rw [hmink] at this
          exact_mod_cast this
        simp only [vlState, viewLimitedPaste]
        rw [hmink, hmink1,
          show ((k : Int) + 1) = (((k + 1 : Nat)) : Int) by push_cast; ring,
          show decide (k + 1 < N) = false from decide_eq_false (by omega)]
      · rename_i hlr
        rw [view_limit_eq_some _ ((N : Nat) : Int) rfl] at hlr
        have hlt : ¬(((N : Nat) : Int) ≤ ((vlState pid c N ca k).current_views + 1)) := by
          intro hcon
          exact hlr (by simpa using decide_eq_true hcon)
        -- derive k + 1 < N
        have hlt2 : k + 1 < N := by
          rw [hcv] at hlt
          have : ¬(N ≤ k + 1) := by
            intro hcon
            exact hlt (by exact_mod_cast hcon)
          omega
        simp only [vlState, viewLimitedPaste]
        rw [hmink, hmink1,
          show ((k : Int) + 1) = (((k + 1 : Nat)) : Int) by push_cast; ring,
          show decide (k + 1 < N) = true from decide_eq_true hlt2,
          show decide (k < N) = true from decide_eq_true hk]
    rw [hupd, hbump, if_pos hk]
    have hexp2 : (vlState pid c N ca (k + 1)).expires_at = none := rfl
    have hrem : (vlState pid c N ca (k + 1)).get_remaining_views
        = some ((N : Int) - (k : Int) - 1) := by
      rw [get_remaining_views_eq_some _ ((N : Nat) : Int) rfl]
      have hcv1 : (vlState pid c N ca (k + 1)).current_views
          = (((k + 1 : Nat)) : Int) := by
        simp [vlState, hmink1]
      rw [hcv1, max_eq_right (by push_cast; omega)]
      congr 1
      push_cast
      ring
    unfold successPayload
    rw [hrem, hexp2]
    rfl
  · have hminkN : min k N = N := Nat.min_eq_right (by omega)
    have hmink1N : min (k + 1) N = N := Nat.min_eq_right (by omega)
    have hactf : (vlState pid c N ca k).is_active = false := by
      simp [vlState, hk]
    have hunav : (vlState pid c N ca k).is_available t = false := by
      rw [is_available_eq, hactf]
      rfl
    rw [fetch_paste_unavailable _ _ _ _ hfind hunav]
    have hlimt : (vlState pid c N ca k).is_view_limit_reached = true := by
      rw [view_limit_eq_some _ ((N : Nat) : Int) rfl]
      refine decide_eq_true ?_
      show ((N : Nat) : Int) ≤ (vlState pid c N ca k).current_views
      have hcv : (vlState pid c N ca k).current_views = ((N : Nat) : Int) := by
        simp [vlState, hminkN]
      rw [hcv]
    have hmsg : classifyApi (vlState pid c N ca k) t = "View limit exceeded" := by
      unfold classifyApi
      rw [is_expired_eq_none _ t rfl, hlimt]
      rfl
    have hupd : updateFirst [vlState pid c N ca k] pid deactivate
        = [deactivate (vlState pid c N ca k)] := by
      simp [updateFirst, hid]
    have hdeact : deactivate (vlState pid c N ca k) = vlState pid c N ca (k + 1) := by
      simp only [deactivate, vlState, viewLimitedPaste]
      rw [hminkN, hmink1N,
        show decide (k + 1 < N) = false from decide_eq_false (by omega)]
    rw [hmsg, hupd, hdeact, if_neg hk]

theorem fetchN_state (N : Nat) (hN : 1 ≤ N) (pid c : String) (ca t : Int)
    (k : Nat) :
    fetchN [viewLimitedPaste pid c N ca] pid t k = [vlState pid c N ca k] := by
  induction k with
  | zero =>
      have h0 : vlState pid c N ca 0 = viewLimitedPaste pid c N ca := by
        simp only [vlState, viewLimitedPaste]
        rw [Nat.zero_min, Nat.cast_zero,
          show decide (0 < N) = true from decide_eq_true hN]
      unfold fetchN
      rw [h0]
  | succ k ih =>
      unfold fetchN
      rw [ih, fetch_vlState_step N pid c ca t k]

/-- C2: for a paste created with `max_views = N` (`N ≥ 1`) and no time
expiry, under sequential fetches the first `N` fetches succeed and return
the content (including the one that raises `current_views` to exactly `N`),
every fetch after the `N`-th answers 404, and `current_views` never exceeds
`N`. -/
theorem view_limit_protocol (N : Nat) (hN : 1 ≤ N) (pid c : String)
    (ca t : Int) (k : Nat) :
    (k < N → (fetch_paste (fetchN [viewLimitedPaste pid c N ca] pid t k) pid t).1
        = .success c (some ((N : Int) - (k : Int) - 1)) none)
    ∧ (N ≤ k → (fetch_paste (fetchN [viewLimitedPaste pid c N ca] pid t k) pid t).1
        = .error 404 "View limit exceeded")
    ∧ viewsOf (fetchN [viewLimitedPaste pid c N ca] pid t k) pid ≤ (N : Int) := by
  rw [fetchN_state N hN pid c ca t k]
  refine ⟨?_, ?_, ?_⟩
  · intro hk
    rw [fetch_vlState_step N pid c ca t k, if_pos hk]
  · intro hk
    rw [fetch_vlState_step N pid c ca t k, if_neg (by omega)]
  · have hid : ((vlState pid c N ca k).id == pid) = true := beq_self_eq_true pid
    have hf : findPaste [vlState pid c N ca k] pid
        = some (vlState pid c N ca k) := by
      rw [findPaste_cons, if_pos hid]
    rw [viewsOf_eq _ _ _ hf]
    show ((min k N : Nat) : Int) ≤ ((N : Nat) : Int)
    exact_mod_cast Nat.min_le_right k N

/-- Witness for `view_limit_protocol` with `N = 1`: the first fetch
succeeds with the content and the second is rejected. -/
theorem view_limit_protocol_witness :
    (fetch_paste (fetchN [viewLimitedPaste "a" "c" 1 0] "a" 0 0) "a" 0).1
      = FetchResponse.success "c" (some ((1 : Int) - (0 : Int) - 1)) none
    ∧ (fetch_paste (fetchN [viewLimitedPaste "a" "c" 1 0] "a" 0 1) "a" 0).1
      = FetchResponse.error 404 "View limit exceeded" :=
  ⟨(view_limit_protocol 1 (by decide) "a" "c" 0 0 0).1 (by decide),
   (view_limit_protocol 1 (by decide) "a" "c" 0 0 1).2.1 (by decide)⟩

example :
    format_datetime_iso (datetimeOfMicros 1769860800000000)
      = "2026-01-31T12:00:00.000Z" := by
  rw [format_datetime_iso_canonical]
  decide
